import Mathlib

/-!
Shallow embedding of the firework simulation (src/fireworks.py) and proofs
about its data model, state machine, burst generation, rendering alphas,
frame ordering, spawning and auto-spawn cadence.

Modelling conventions:
* Python floats are modelled as rationals (ℚ); Python ints as ℤ/ℕ.
* Python `int(...)` truncation toward zero is `pyInt`.
* Randomness is modelled by oracles passed explicitly: each call site's
  requested range (`random.randint(a, b)`, `random.uniform(a, b)`,
  `random.random() < 0.3`) becomes an `InRange` predicate on the oracle,
  mirroring the bounds the source passes to the RNG.
* `math.cos` / `math.sin` are modelled by arbitrary functions `mc ms : ℚ → ℚ`
  (no claim depends on trigonometric values, only on the angle arguments).
* `math.pi` is the exact value of the IEEE-754 double constant.
-/

namespace Fireworks

/-- Viewport width constant from line 10 of the source. -/
def WIDTH : ℚ := 800

/-- Viewport height constant from line 10 of the source. -/
def HEIGHT : ℚ := 600

/-- RGB colors are triples of naturals. -/
abbrev Color := ℕ × ℕ × ℕ

/-- The palette the source picks spawn colors from (lines 17-20). -/
def COLORS : List Color :=
  [(255, 0, 0), (255, 165, 0), (255, 255, 0), (0, 255, 0),
   (0, 0, 255), (75, 0, 130), (238, 130, 238), (255, 192, 203)]

/-- The exact rational value of the IEEE-754 double `math.pi`. -/
def mathPi : ℚ := 884279719003555 / 281474976710656

/-- Python `int(...)` applied to a float: truncation toward zero. -/
def pyInt (q : ℚ) : ℤ := if 0 ≤ q then ⌊q⌋ else ⌈q⌉

/-- State of a `Particle` (source lines 22-33), fields in constructor order. -/
structure Particle where
  x : ℚ
  y : ℚ
  color : Color
  size : ℕ
  vx : ℚ
  vy : ℚ
  gravity : ℚ
  life : ℤ
  decay : ℚ
  trail : List (ℚ × ℚ)
deriving DecidableEq

/-- `Particle.__init__` (source lines 23-33).  `decay` is the value drawn by
`random.uniform(0.8, 0.99)`; `mc`/`ms` model `math.cos`/`math.sin`. -/
def Particle.init (mc ms : ℚ → ℚ) (x y : ℚ) (color : Color) (speed angle : ℚ)
    (size : ℕ) (decay : ℚ) : Particle :=
  { x := x
    y := y
    color := color
    size := size
    vx := mc angle * speed
    vy := ms angle * speed
    gravity := 1 / 10
    life := 100
    decay := decay
    trail := [] }

/-- `Particle.update` (source lines 35-47): append position to the trail and
pop the oldest entry past 10, apply decay to the velocity, add gravity to
`vy`, move, and decrement `life`. -/
def Particle.update (p : Particle) : Particle :=
  let trail0 := p.trail ++ [(p.x, p.y)]
  let trail1 := if 10 < trail0.length then trail0.tail else trail0
  let vx1 := p.vx * p.decay
  let vy1 := p.vy * p.decay + p.gravity
  { p with
    trail := trail1
    vx := vx1
    vy := vy1
    x := p.x + vx1
    y := p.y + vy1
    life := p.life - 1 }

/-- `Particle.is_alive` (source lines 63-64). -/
def Particle.is_alive (p : Particle) : Bool :=
  decide (0 < p.life) && decide (p.y < HEIGHT + 50)

/-- The alpha values `Particle.draw` computes for the trail dots
(source lines 51-56): one per trail index, only when the trail has more
than one point. -/
def Particle.trailAlphas (p : Particle) : List ℤ :=
  if 1 < p.trail.length then
    (List.range p.trail.length).map (fun (i : ℕ) =>
      pyInt (255 * ((i : ℚ) / (p.trail.length : ℚ)) * ((p.life : ℚ) / 100)))
  else []

/-- The alpha value `Particle.draw` computes for the particle body
(source line 59): `max(0, min(255, life * 2))`. -/
def Particle.bodyAlpha (p : Particle) : ℤ := max 0 (min 255 (p.life * 2))

/-- State of a `Firework` (source lines 66-76), fields in constructor order. -/
structure Firework where
  x : ℚ
  y : ℚ
  target_y : ℚ
  color : Color
  vx : ℚ
  vy : ℚ
  exploded : Bool
  particles : List Particle
  trail : List (ℚ × ℚ)
deriving DecidableEq

/-- `Firework.__init__` (source lines 67-76).  `u` is the value drawn by
`random.uniform(15, 20)`; the initial velocity is `-u`.  The `y` of the spawn
request is only ever used as `target_y`; the rocket always starts at
`y = HEIGHT`. -/
def Firework.init (x target_y : ℚ) (color : Color) (u : ℚ) : Firework :=
  { x := x
    y := HEIGHT
    target_y := target_y
    color := color
    vx := 0
    vy := -u
    exploded := false
    particles := []
    trail := [] }

/-- Oracle for the random draws `Firework.explode` makes, indexed by the
loop counter `i`: `speed i` is `random.uniform(2, 8)`, `size i` is
`random.randint(2, 4)`, `decay i` the primary particle's
`random.uniform(0.8, 0.99)`, `scRoll i` is `random.random()`, `scAngle i`
is `random.uniform(0, 2 * math.pi)`, `scSpeed i` is `random.uniform(1, 5)`
and `scDecay i` the scatter particle's decay draw.  `count` is the draw of
`random.randint(30, 60)`. -/
structure ExplodeRand where
  count : ℕ
  speed : ℕ → ℚ
  size : ℕ → ℕ
  decay : ℕ → ℚ
  scRoll : ℕ → ℚ
  scAngle : ℕ → ℚ
  scSpeed : ℕ → ℚ
  scDecay : ℕ → ℚ

/-- The ranges the source requests from the RNG at each call site of
`Firework.explode` (source lines 101-117). -/
def ExplodeRand.InRange (r : ExplodeRand) : Prop :=
  30 ≤ r.count ∧ r.count ≤ 60 ∧
  (∀ i, 2 ≤ r.speed i ∧ r.speed i ≤ 8) ∧
  (∀ i, 2 ≤ r.size i ∧ r.size i ≤ 4) ∧
  (∀ i, 4 / 5 ≤ r.decay i ∧ r.decay i ≤ 99 / 100) ∧
  (∀ i, 0 ≤ r.scRoll i ∧ r.scRoll i < 1) ∧
  (∀ i, 0 ≤ r.scAngle i ∧ r.scAngle i ≤ 2 * mathPi) ∧
  (∀ i, 1 ≤ r.scSpeed i ∧ r.scSpeed i ≤ 5) ∧
  (∀ i, 4 / 5 ≤ r.scDecay i ∧ r.scDecay i ≤ 99 / 100)

/-- `Firework.explode` (source lines 99-118): set the phase flag, then for
each `i < particle_count` append a primary particle with angle
`2 * math.pi * i / particle_count` and, when `random.random() < 0.3`, one
scatter particle with half the primary's size (integer division). -/
def Firework.explode (mc ms : ℚ → ℚ) (r : ExplodeRand) (f : Firework) : Firework :=
  { f with
    exploded := true
    particles := f.particles ++ (List.range r.count).flatMap (fun i =>
      (Particle.init mc ms f.x f.y f.color (r.speed i)
        (2 * mathPi * (i : ℚ) / (r.count : ℚ)) (r.size i) (r.decay i)) ::
      (if r.scRoll i < 3 / 10 then
        [Particle.init mc ms f.x f.y f.color (r.scSpeed i) (r.scAngle i)
          (r.size i / 2) (r.scDecay i)]
      else [])) }

/-- `Firework.update` (source lines 78-97).  While not exploded: extend the
ascent trail (cap 20), apply the constant 0.3 acceleration, move, and explode
once `vy >= 0` or `y <= target_y` (both read after the move).  Once exploded:
update every particle and drop the dead ones. -/
def Firework.update (mc ms : ℚ → ℚ) (r : ExplodeRand) (f : Firework) : Firework :=
  if f.exploded then
    { f with particles := (f.particles.map Particle.update).filter Particle.is_alive }
  else
    let trail0 := f.trail ++ [(f.x, f.y)]
    let trail1 := if 20 < trail0.length then trail0.tail else trail0
    let vy1 := f.vy + 3 / 10
    let y1 := f.y + vy1
    let f1 : Firework :=
      { f with
        trail := trail1
        vy := vy1
        y := y1 }
    if 0 ≤ vy1 ∨ y1 ≤ f.target_y then Firework.explode mc ms r f1 else f1

/-- `Firework.is_alive` (source lines 136-139). -/
def Firework.is_alive (f : Firework) : Bool :=
  if f.exploded then decide (0 < f.particles.length) else true

/-- The alpha values `Firework.draw` computes for the ascent trail
(source lines 123-127). -/
def Firework.ascentAlphas (f : Firework) : List ℤ :=
  if 1 < f.trail.length then
    (List.range f.trail.length).map (fun (i : ℕ) =>
      pyInt (255 * ((i : ℚ) / (f.trail.length : ℚ))))
  else []

/-- Iterated update: the state of a firework after a list of frames, one
explode-oracle per frame. -/
def Firework.iter (mc ms : ℚ → ℚ) (rs : List ExplodeRand) (f : Firework) : Firework :=
  rs.foldl (fun g r => Firework.update mc ms r g) f

/-- A single-channel pixel model of `Surface.fill` with an opaque color
(pygame `fill` replaces the pixel). -/
def solidFill (c _prev : ℚ) : ℚ := c

/-- A single-channel pixel model of blitting a surface with per-surface
alpha `a` over a destination pixel. -/
def alphaBlit (a src dst : ℚ) : ℚ := (src * a + dst * (255 - a)) / 255

/-- What the source's per-frame clear (lines 170-173) does to a screen
pixel: `screen.fill(BLACK)` — an opaque clear — followed by blitting the
black `trail_surface` whose surface alpha is 20. -/
def codeFrameClear (prev : ℚ) : ℚ := alphaBlit 20 0 (solidFill 0 prev)

/-- Modelled from the spec: the renderer contract of section 4.4 — the
viewport is cleared only by blitting the 20/255-alpha black surface, with
no opaque fill, so previous content persists at 235/255 brightness. -/
def specFrameClear (prev : ℚ) : ℚ := alphaBlit 20 0 prev

/-- Events of one pass of the main loop's per-firework body
(source lines 176-180). -/
inductive Ev where
  | upd (i : ℕ)
  | drw (i : ℕ)
  | prune (i : ℕ)
deriving DecidableEq

/-- The events the loop body emits for the firework at iteration index `i`:
update, then draw, then — only when the updated firework is dead — removal. -/
def eventsAt (mc ms : ℚ → ℚ) (r : ℕ → ExplodeRand) (i : ℕ) (f : Firework) : List Ev :=
  [Ev.upd i, Ev.drw i] ++
    (if (Firework.update mc ms (r i) f).is_alive then [] else [Ev.prune i])

/-- The event trace of one frame of the main loop (source lines 176-180):
Python iterates over the snapshot `fireworks[:]` and, for each firework in
order, updates it, draws it, and removes it from the live list if dead. -/
def frameEvents (mc ms : ℚ → ℚ) (r : ℕ → ExplodeRand) : ℕ → List Firework → List Ev
  | _, [] => []
  | i, f :: rest => eventsAt mc ms r i f ++ frameEvents mc ms r (i + 1) rest

/-- The ordering the claim asserts of a frame trace: every update precedes
every draw, and every draw precedes every removal. -/
def BatchOrdered (tr : List Ev) : Prop :=
  (∀ p q i j, tr.get? p = some (Ev.upd i) → tr.get? q = some (Ev.drw j) → p < q) ∧
  (∀ p q i j, tr.get? p = some (Ev.drw i) → tr.get? q = some (Ev.prune j) → p < q)

/-- The mouse-click spawn path (source lines 155-159): the click position
`pos` is passed to the `Firework` constructor verbatim, `pos.1` as `x` and
`pos.2` as `target_y`; the new firework is appended to the live list. -/
def mouseSpawn (pos : ℚ × ℚ) (col : Color) (u : ℚ) (fs : List Firework) : List Firework :=
  fs ++ [Firework.init pos.1 pos.2 col u]

/-- Oracle for the random draws of one auto-spawn check (source lines
163-167): `threshold` is `random.randint(30, 60)`, `xPos` is
`random.randint(50, WIDTH - 50)`, `targetY` is `random.randint(50, HEIGHT // 2)`,
`vyDraw` is the constructor's `random.uniform(15, 20)` and `color` the
`random.choice(COLORS)`. -/
structure AutoSpawnRand where
  threshold : ℕ
  xPos : ℚ
  targetY : ℚ
  vyDraw : ℚ
  color : Color

/-- The ranges the source requests from the RNG in the auto-spawn branch. -/
def AutoSpawnRand.InRange (r : AutoSpawnRand) : Prop :=
  30 ≤ r.threshold ∧ r.threshold ≤ 60 ∧
  50 ≤ r.xPos ∧ r.xPos ≤ WIDTH - 50 ∧
  50 ≤ r.targetY ∧ r.targetY ≤ HEIGHT / 2 ∧
  15 ≤ r.vyDraw ∧ r.vyDraw ≤ 20 ∧ r.color ∈ COLORS

/-- One frame of the auto-spawn logic (source lines 162-168): increment the
counter, compare it against this frame's freshly drawn threshold, and on
success append one firework and reset the counter to zero. -/
def autoSpawnFrame (r : AutoSpawnRand) (c : ℕ) (fs : List Firework) :
    ℕ × List Firework :=
  if c + 1 > r.threshold then
    (0, fs ++ [Firework.init r.xPos r.targetY r.color r.vyDraw])
  else (c + 1, fs)

/-- The spawn/no-spawn trace of the source's auto-spawn logic over a stream
of threshold draws, one draw consumed per frame (a fresh
`random.randint(30, 60)` is evaluated inside the condition every frame). -/
def codeAutoTrace : List ℕ → ℕ → List Bool
  | [], _ => []
  | d :: rest, c =>
    if c + 1 > d then true :: codeAutoTrace rest 0
    else false :: codeAutoTrace rest (c + 1)

/-- Modelled from the claim: one threshold per cycle, drawn when the cycle
starts and held fixed while the counter climbs; the next value of the
stream is consumed only when a spawn ends the cycle.  `n` is the number of
frames, `c` the counter, `t` the currently held threshold. -/
def claimAutoTrace : ℕ → ℕ → ℕ → List ℕ → List Bool
  | 0, _, _, _ => []
  | n + 1, c, t, future =>
    if c + 1 > t then
      true :: (match future with
        | [] => claimAutoTrace n 0 t []
        | t1 :: rest => claimAutoTrace n 0 t1 rest)
    else false :: claimAutoTrace n (c + 1) t future

/-- A fixed stand-in for `math.cos` (no claim depends on its values). -/
def mc0 : ℚ → ℚ := fun _ => 1

/-- A fixed stand-in for `math.sin` (no claim depends on its values). -/
def ms0 : ℚ → ℚ := fun _ => 0

/-- A concrete explosion oracle, in range, with the scatter roll above 0.3. -/
def rand0 : ExplodeRand :=
  ⟨30, fun _ => 2, fun _ => 2, fun _ => 4 / 5, fun _ => 1 / 2,
   fun _ => 0, fun _ => 1, fun _ => 4 / 5⟩

/-- A particle one update away from death: `life = 1`. -/
def dyingParticle : Particle :=
  ⟨0, 0, (255, 255, 255), 3, 0, 0, 1 / 10, 1, 9 / 10, []⟩

/-- An exploded firework whose only particle dies on the next update, so the
firework itself dies within the frame. -/
def deadSoonFirework : Firework :=
  ⟨0, 0, 0, (255, 0, 0), 0, 0, true, [dyingParticle], []⟩

/-- A freshly launched firework far from its target: it survives the frame. -/
def risingFirework : Firework := Firework.init 100 100 (0, 255, 0) 15

/-- C1: the source's per-frame clear is NOT only a partially-opaque fill:
line 171 runs `screen.fill(BLACK)`, a fully opaque clear, before blitting the
alpha-20 surface, so a cleared pixel becomes 0 whatever the previous frame
held and no trail persists.  The spec's low-alpha-only clear would keep
235/255 of the previous brightness; at previous brightness 255 the two
disagree (0 versus 235). -/
theorem frameClear_fully_opaque :
    (∀ prev, codeFrameClear prev = 0) ∧
    codeFrameClear 255 = 0 ∧ specFrameClear 255 = 235 ∧
    codeFrameClear 255 ≠ specFrameClear 255 := by
  refine ⟨fun prev => ?_, ?_, ?_, ?_⟩ <;>
    norm_num [codeFrameClear, specFrameClear, alphaBlit, solidFill]

/-- C8 counterexample: the spawn request (-100, 700) lies outside the
viewport, yet the spawned firework keeps x = -100 < 0 and
target_y = 700 > HEIGHT: nothing is clamped before construction. -/
theorem spawn_out_of_bounds_not_clamped :
    mouseSpawn (-100, 700) (255, 0, 0) 15 [] =
      [Firework.init (-100) 700 (255, 0, 0) 15] ∧
    (Firework.init (-100) 700 (255, 0, 0) 15).x = -100 ∧
    (Firework.init (-100) 700 (255, 0, 0) 15).x < 0 ∧
    HEIGHT < (Firework.init (-100) 700 (255, 0, 0) 15).target_y := by
  norm_num [mouseSpawn, Firework.init, HEIGHT]

/-- C8 amended: spawn requests are never rejected — the firework is appended
unconditionally — but nothing is clamped: the request's x and y are taken
verbatim as the firework's x and target_y, the initial y is always the
viewport height and vx is 0. -/
theorem spawn_passthrough (pos : ℚ × ℚ) (col : Color) (u : ℚ) (fs : List Firework) :
    (mouseSpawn pos col u fs).length = fs.length + 1 ∧
    (mouseSpawn pos col u fs).getLast? = some (Firework.init pos.1 pos.2 col u) ∧
    (Firework.init pos.1 pos.2 col u).x = pos.1 ∧
    (Firework.init pos.1 pos.2 col u).target_y = pos.2 ∧
    (Firework.init pos.1 pos.2 col u).y = HEIGHT ∧
    (Firework.init pos.1 pos.2 col u).vx = 0 := by
  refine ⟨by simp [mouseSpawn], ?_, rfl, rfl, rfl, rfl⟩
  simp [mouseSpawn]

/-- C3: one update of an ascending firework appends (x, y) to the ascent
trail with FIFO cap 20, adds the constant 0.3 to vy, adds the new vy to y,
and ends exploded exactly when the post-move vy ≥ 0 or y ≤ target_y; the
transition is one-directional — an exploded firework stays exploded under
every further update. -/
theorem ascending_update_step (mc ms : ℚ → ℚ) (r : ExplodeRand) (f : Firework)
    (h : f.exploded = false) :
    (Firework.update mc ms r f).vy = f.vy + 3 / 10 ∧
    (Firework.update mc ms r f).y = f.y + (f.vy + 3 / 10) ∧
    (Firework.update mc ms r f).trail =
      (if 20 < (f.trail ++ [(f.x, f.y)]).length then (f.trail ++ [(f.x, f.y)]).tail
       else f.trail ++ [(f.x, f.y)]) ∧
    (f.trail.length ≤ 20 → (Firework.update mc ms r f).trail.length ≤ 20) ∧
    ((Firework.update mc ms r f).exploded = true ↔
      0 ≤ f.vy + 3 / 10 ∨ f.y + (f.vy + 3 / 10) ≤ f.target_y) ∧
    (∀ (g : Firework) (r2 : ExplodeRand), g.exploded = true →
      (Firework.update mc ms r2 g).exploded = true) := by
  have hup : Firework.update mc ms r f =
      (if 0 ≤ f.vy + 3 / 10 ∨ f.y + (f.vy + 3 / 10) ≤ f.target_y then
        Firework.explode mc ms r
          { f with
            trail := if 20 < (f.trail ++ [(f.x, f.y)]).length then
                (f.trail ++ [(f.x, f.y)]).tail
              else f.trail ++ [(f.x, f.y)]
            vy := f.vy + 3 / 10
            y := f.y + (f.vy + 3 / 10) }
      else
        { f with
          trail := if 20 < (f.trail ++ [(f.x, f.y)]).length then
              (f.trail ++ [(f.x, f.y)]).tail
            else f.trail ++ [(f.x, f.y)]
          vy := f.vy + 3 / 10
          y := f.y + (f.vy + 3 / 10) }) := by
    simp [Firework.update, h]
  have hlen1 : (f.trail ++ [(f.x, f.y)]).length = f.trail.length + 1 := by simp
  refine ⟨?_, ?_, ?_, ?_, ?_, ?_⟩
  · rw [hup]; split <;> simp [Firework.explode]
  · rw [hup]; split <;> simp [Firework.explode]
  · rw [hup]; split <;> simp [Firework.explode]
  · intro hlen
    have htl : (if 20 < (f.trail ++ [(f.x, f.y)]).length then
        (f.trail ++ [(f.x, f.y)]).tail
      else f.trail ++ [(f.x, f.y)]).length ≤ 20 := by
      by_cases hcap : 20 < (f.trail ++ [(f.x, f.y)]).length
      · rw [if_pos hcap, List.length_tail]; omega
      · rw [if_neg hcap]; omega
    rw [hup]; split <;> simpa [Firework.explode] using htl
  · rw [hup]
    by_cases hc : 0 ≤ f.vy + 3 / 10 ∨ f.y + (f.vy + 3 / 10) ≤ f.target_y
    · rw [if_pos hc]; simp [Firework.explode, hc]
    · rw [if_neg hc]; simp [h, hc]
  · intro g r2 hg
    simp [Firework.update, hg]

/-- C5: one particle update appends the current position to the trail with
FIFO cap 10, scales both velocity components by the particle's decay, then
adds the gravity field (always 1/10 for constructed particles) to vy, moves
by the new velocity, and decrements life by exactly one; any particle whose
life is ≤ 0 reports is_alive = false. -/
theorem particle_update_step (p : Particle) :
    (Particle.update p).trail =
      (if 10 < (p.trail ++ [(p.x, p.y)]).length then (p.trail ++ [(p.x, p.y)]).tail
       else p.trail ++ [(p.x, p.y)]) ∧
    (p.trail.length ≤ 10 → (Particle.update p).trail.length ≤ 10) ∧
    (Particle.update p).vx = p.vx * p.decay ∧
    (Particle.update p).vy = p.vy * p.decay + p.gravity ∧
    (Particle.update p).x = p.x + p.vx * p.decay ∧
    (Particle.update p).y = p.y + (p.vy * p.decay + p.gravity) ∧
    (Particle.update p).life = p.life - 1 ∧
    (∀ (mc ms : ℚ → ℚ) (x y : ℚ) (col : Color) (s a : ℚ) (sz : ℕ) (d : ℚ),
      (Particle.init mc ms x y col s a sz d).gravity = 1 / 10) ∧
    (∀ q : Particle, q.life ≤ 0 → q.is_alive = false) := by
  have hlen1 : (p.trail ++ [(p.x, p.y)]).length = p.trail.length + 1 := by simp
  refine ⟨rfl, ?_, rfl, rfl, rfl, rfl, rfl, fun _ _ _ _ _ _ _ _ _ => rfl, ?_⟩
  · intro hlen
    show (if 10 < (p.trail ++ [(p.x, p.y)]).length then (p.trail ++ [(p.x, p.y)]).tail
      else p.trail ++ [(p.x, p.y)]).length ≤ 10
    by_cases hcap : 10 < (p.trail ++ [(p.x, p.y)]).length
    · rw [if_pos hcap, List.length_tail]; omega
    · rw [if_neg hcap]; omega
  · intro q hq
    have hdec : decide (0 < q.life) = false := by simp; omega
    simp [Particle.is_alive, hdec]

/-- C3 witness at a concrete ascending firework. -/
theorem ascending_update_step_witness :
    (Firework.update mc0 ms0 rand0 risingFirework).vy = risingFirework.vy + 3 / 10 ∧
    ((Firework.update mc0 ms0 rand0 risingFirework).exploded = true ↔
      0 ≤ risingFirework.vy + 3 / 10 ∨
        risingFirework.y + (risingFirework.vy + 3 / 10) ≤ risingFirework.target_y) :=
  ⟨(ascending_update_step mc0 ms0 rand0 risingFirework rfl).1,
   (ascending_update_step mc0 ms0 rand0 risingFirework rfl).2.2.2.2.1⟩

/-- C5 witness at a concrete particle with life 1: after the update its life
is 0 and it is no longer alive. -/
theorem particle_update_step_witness :
    (Particle.update dyingParticle).life = dyingParticle.life - 1 ∧
    (Particle.update dyingParticle).is_alive = false :=
  ⟨(particle_update_step dyingParticle).2.2.2.2.2.2.1,
   (particle_update_step dyingParticle).2.2.2.2.2.2.2.2 (Particle.update dyingParticle)
     (by norm_num [Particle.update, dyingParticle])⟩

/-- C10: the constructor ignores the request's y except as target_y — the
rocket always starts at y = HEIGHT with vx = 0 — and a spawn whose request
y is at least HEIGHT - 14.7 explodes on its very first update, for every
initial-speed draw u in [15, 20] (initial vy = -u in [-20, -15]). -/
theorem bottom_click_explodes_first_update (mc ms : ℚ → ℚ) (r : ExplodeRand)
    (x ty : ℚ) (col : Color) (u : ℚ)
    (hu1 : 15 ≤ u) (hu2 : u ≤ 20) (hty : HEIGHT - 147 / 10 ≤ ty) :
    (Firework.init x ty col u).y = HEIGHT ∧
    (Firework.init x ty col u).vx = 0 ∧
    (Firework.init x ty col u).target_y = ty ∧
    (Firework.update mc ms r (Firework.init x ty col u)).exploded = true := by
  refine ⟨rfl, rfl, rfl, ?_⟩
  have hc : u ≤ 3 / 10 ∨ HEIGHT + (-u + 3 / 10) ≤ ty := by
    right
    simp only [HEIGHT] at hty ⊢
    linarith
  simp [Firework.update, Firework.init, Firework.explode, hc]

/-- C10 witness: a click at y = 590 (within 14.7 of the bottom edge) with
the slowest launch speed explodes on the first update. -/
theorem bottom_click_explodes_first_update_witness :
    (Firework.update mc0 ms0 rand0 (Firework.init 100 590 (255, 0, 0) 15)).exploded = true :=
  (bottom_click_explodes_first_update mc0 ms0 rand0 100 590 (255, 0, 0) 15
    (by norm_num) (by norm_num) (by norm_num [HEIGHT])).2.2.2

/-- One update step preserves the not-exploded-implies-no-particles
invariant. -/
lemma update_preserves_empty (mc ms : ℚ → ℚ) (r : ExplodeRand) (f : Firework)
    (h : f.exploded = false → f.particles = []) :
    (Firework.update mc ms r f).exploded = false →
      (Firework.update mc ms r f).particles = [] := by
  intro h2
  by_cases hexp : f.exploded
  · simp [Firework.update, hexp] at h2
  · have hp := h (by simpa using hexp)
    by_cases hc : 0 ≤ f.vy + 3 / 10 ∨ f.y + (f.vy + 3 / 10) ≤ f.target_y
    · simp [Firework.update, hexp, hc, Firework.explode] at h2
    · simp [Firework.update, hexp, hc, hp]

/-- The invariant holds after any number of frames. -/
lemma iter_particles_empty (mc ms : ℚ → ℚ) :
    ∀ (rs : List ExplodeRand) (f : Firework),
      (f.exploded = false → f.particles = []) →
      ((Firework.iter mc ms rs f).exploded = false →
        (Firework.iter mc ms rs f).particles = []) := by
  intro rs
  induction rs with
  | nil => intro f h; simpa [Firework.iter] using h
  | cons r t ih =>
      intro f h
      simp only [Firework.iter, List.foldl_cons]
      exact ih (Firework.update mc ms r f) (update_preserves_empty mc ms r f h)

/-- C7: along every update sequence from a constructed firework, the
particles list is empty while the phase flag is down; and once the flag is
up, a further update leaves x, y, vy and the ascent trail untouched (only
the particles evolve), the flag staying up. -/
theorem firework_phase_invariants (mc ms : ℚ → ℚ) (rs : List ExplodeRand)
    (x ty : ℚ) (col : Color) (u : ℚ) :
    ((Firework.iter mc ms rs (Firework.init x ty col u)).exploded = false →
      (Firework.iter mc ms rs (Firework.init x ty col u)).particles = []) ∧
    (∀ (g : Firework) (r2 : ExplodeRand), g.exploded = true →
      (Firework.update mc ms r2 g).x = g.x ∧
      (Firework.update mc ms r2 g).y = g.y ∧
      (Firework.update mc ms r2 g).vy = g.vy ∧
      (Firework.update mc ms r2 g).trail = g.trail ∧
      (Firework.update mc ms r2 g).exploded = true) := by
  constructor
  · exact iter_particles_empty mc ms rs _ (fun _ => rfl)
  · intro g r2 hg
    refine ⟨?_, ?_, ?_, ?_, ?_⟩ <;> simp [Firework.update, hg]

/-- C7 witness: the freshly constructed firework has no particles, and the
exploded example firework keeps its ascent state frozen across an update. -/
theorem firework_phase_invariants_witness :
    (Firework.iter mc0 ms0 [] (Firework.init 100 590 (255, 0, 0) 15)).particles = [] ∧
    (Firework.update mc0 ms0 rand0 deadSoonFirework).trail = deadSoonFirework.trail ∧
    (Firework.update mc0 ms0 rand0 deadSoonFirework).exploded = true :=
  ⟨(firework_phase_invariants mc0 ms0 [] 100 590 (255, 0, 0) 15).1 rfl,
   ((firework_phase_invariants mc0 ms0 [] 100 590 (255, 0, 0) 15).2
     deadSoonFirework rand0 rfl).2.2.2.1,
   ((firework_phase_invariants mc0 ms0 [] 100 590 (255, 0, 0) 15).2
     deadSoonFirework rand0 rfl).2.2.2.2⟩

/-- Truncation keeps a rational that lies in [0, 255] inside [0, 255]. -/
lemma pyInt_bounds {q : ℚ} (h0 : 0 ≤ q) (h255 : q ≤ 255) :
    0 ≤ pyInt q ∧ pyInt q ≤ 255 := by
  unfold pyInt
  rw [if_pos h0]
  refine ⟨Int.le_floor.mpr (by exact_mod_cast h0), ?_⟩
  have hle : (⌊q⌋ : ℚ) ≤ 255 := le_trans (Int.floor_le q) h255
  exact_mod_cast hle

/-- Bound for one trail-alpha entry of `Particle.draw`. -/
lemma trail_alpha_bound {i len : ℕ} {life : ℤ} (hi : i < len)
    (hl0 : 0 < life) (hl100 : life ≤ 100) :
    0 ≤ pyInt (255 * ((i : ℚ) / (len : ℚ)) * ((life : ℚ) / 100)) ∧
    pyInt (255 * ((i : ℚ) / (len : ℚ)) * ((life : ℚ) / 100)) ≤ 255 := by
  have hlen0 : (0 : ℚ) < len := by
    have : 0 < len := Nat.pos_of_ne_zero (by omega)
    exact_mod_cast this
  have hfrac0 : 0 ≤ (i : ℚ) / len := div_nonneg (Nat.cast_nonneg i) (le_of_lt hlen0)
  have hfrac1 : (i : ℚ) / len ≤ 1 := by
    rw [div_le_one hlen0]
    exact_mod_cast le_of_lt hi
  have hlife0 : 0 ≤ (life : ℚ) / 100 := by
    apply div_nonneg _ (by norm_num)
    exact_mod_cast hl0.le
  have hlife1 : (life : ℚ) / 100 ≤ 1 := by
    rw [div_le_one (by norm_num)]
    exact_mod_cast hl100
  have k1 : 0 ≤ 255 * ((i : ℚ) / len) := by positivity
  apply pyInt_bounds
  · exact mul_nonneg k1 hlife0
  · calc 255 * ((i : ℚ) / len) * ((life : ℚ) / 100) ≤ 255 * ((i : ℚ) / len) :=
      mul_le_of_le_one_right k1 hlife1
    _ ≤ 255 := by nlinarith

/-- Bound for one ascent-trail alpha entry of `Firework.draw`. -/
lemma ascent_alpha_bound {i len : ℕ} (hi : i < len) :
    0 ≤ pyInt (255 * ((i : ℚ) / (len : ℚ))) ∧
    pyInt (255 * ((i : ℚ) / (len : ℚ))) ≤ 255 := by
  have hlen0 : (0 : ℚ) < len := by
    have : 0 < len := Nat.pos_of_ne_zero (by omega)
    exact_mod_cast this
  have hfrac0 : 0 ≤ (i : ℚ) / len := div_nonneg (Nat.cast_nonneg i) (le_of_lt hlen0)
  have hfrac1 : (i : ℚ) / len ≤ 1 := by
    rw [div_le_one hlen0]
    exact_mod_cast le_of_lt hi
  apply pyInt_bounds
  · positivity
  · nlinarith

/-- C6: every alpha the drawing code computes lies in [0, 255]: the trail
alphas of a particle with 0 < life ≤ 100 and trail length ≤ 10, the clamped
body alpha of any particle, and the ascent-trail alphas of any firework. -/
theorem alpha_in_range :
    (∀ (p : Particle) (a : ℤ), 0 < p.life → p.life ≤ 100 → p.trail.length ≤ 10 →
      a ∈ p.trailAlphas → 0 ≤ a ∧ a ≤ 255) ∧
    (∀ p : Particle, 0 ≤ p.bodyAlpha ∧ p.bodyAlpha ≤ 255) ∧
    (∀ (f : Firework) (a : ℤ), a ∈ f.ascentAlphas → 0 ≤ a ∧ a ≤ 255) := by
  refine ⟨?_, ?_, ?_⟩
  · intro p a h0 h100 _ ha
    unfold Particle.trailAlphas at ha
    by_cases hg : 1 < p.trail.length
    · rw [if_pos hg] at ha
      obtain ⟨i, hi, hEq⟩ := List.mem_map.mp ha
      rw [← hEq]
      exact trail_alpha_bound (List.mem_range.mp hi) h0 h100
    · rw [if_neg hg] at ha
      cases ha
  · intro p
    unfold Particle.bodyAlpha
    exact ⟨le_max_left 0 _, max_le (by norm_num) (min_le_left 255 _)⟩
  · intro f a ha
    unfold Firework.ascentAlphas at ha
    by_cases hg : 1 < f.trail.length
    · rw [if_pos hg] at ha
      obtain ⟨i, hi, hEq⟩ := List.mem_map.mp ha
      rw [← hEq]
      exact ascent_alpha_bound (List.mem_range.mp hi)
    · rw [if_neg hg] at ha
      cases ha

/-- A concrete particle used to witness the alpha bounds: full life and a
two-point trail, so its trail alphas are [0, 127]. -/
def alphaParticle : Particle :=
  ⟨0, 0, (255, 255, 255), 3, 0, 0, 1 / 10, 100, 9 / 10, [(0, 0), (1, 1)]⟩

/-- A concrete ascending firework with a two-point trail, so its ascent
alphas are [0, 127]. -/
def ascentFirework : Firework :=
  ⟨100, 500, 100, (0, 255, 0), 0, -15, false, [], [(100, 600), (100, 585)]⟩

/-- The example particle's trail alphas evaluate to [0, 127]. -/
lemma alphaParticle_trailAlphas : alphaParticle.trailAlphas = [0, 127] := by
  rw [show alphaParticle.trailAlphas = Particle.trailAlphas alphaParticle from rfl]
  rw [Particle.trailAlphas]
  norm_num [alphaParticle, List.range_succ, pyInt, Int.floor_eq_iff]

/-- The example firework's ascent alphas evaluate to [0, 127]. -/
lemma ascentFirework_ascentAlphas : ascentFirework.ascentAlphas = [0, 127] := by
  rw [show ascentFirework.ascentAlphas = Firework.ascentAlphas ascentFirework from rfl]
  rw [Firework.ascentAlphas]
  norm_num [ascentFirework, List.range_succ, pyInt, Int.floor_eq_iff]

/-- C6 witness at concrete states. -/
theorem alpha_in_range_witness :
    (0 ≤ (127 : ℤ) ∧ (127 : ℤ) ≤ 255) ∧
    (0 ≤ alphaParticle.bodyAlpha ∧ alphaParticle.bodyAlpha ≤ 255) ∧
    (0 ≤ (0 : ℤ) ∧ (0 : ℤ) ≤ 255) :=
  ⟨alpha_in_range.1 alphaParticle 127 (by norm_num [alphaParticle])
      (by norm_num [alphaParticle]) (by norm_num [alphaParticle])
      (by rw [alphaParticle_trailAlphas]; norm_num),
   alpha_in_range.2.1 alphaParticle,
   alpha_in_range.2.2 ascentFirework 0
     (by rw [ascentFirework_ascentAlphas]; norm_num)⟩

/-- Length of a flatMap whose blocks are one mandatory head plus one
optional extra element. -/
lemma flatMap_cons_ite_length {α β : Type} (pr : α → Prop) [DecidablePred pr]
    (g h : α → β) :
    ∀ l : List α,
      (l.flatMap (fun a => g a :: (if pr a then [h a] else []))).length
        = l.length + (l.filter (fun a => decide (pr a))).length := by
  intro l
  induction l with
  | nil => simp
  | cons a t ih =>
      simp only [List.flatMap_cons, List.length_append, List.length_cons, ih,
        List.filter_cons]
      by_cases hp : pr a
      · simp [hp]
        omega
      · simp [hp]
        omega

/-- C4: with in-range random draws and the pre-explosion empty particle
list, explode raises the phase flag and produces, per index i below the
drawn count ∈ [30, 60], one primary particle at the explosion point with
angle 2·π·i/count, the drawn speed and integer size, followed — exactly for
the indices whose roll is below 0.3 — by one scatter particle with its own
angle/speed draws and half the primary size by integer division; in total
count primaries plus one particle per successful roll. -/
theorem explode_burst (mc ms : ℚ → ℚ) (r : ExplodeRand) (f : Firework)
    (hr : r.InRange) (hp : f.particles = []) :
    (Firework.explode mc ms r f).exploded = true ∧
    30 ≤ r.count ∧ r.count ≤ 60 ∧
    (Firework.explode mc ms r f).particles =
      (List.range r.count).flatMap (fun i =>
        (Particle.init mc ms f.x f.y f.color (r.speed i)
          (2 * mathPi * (i : ℚ) / (r.count : ℚ)) (r.size i) (r.decay i)) ::
        (if r.scRoll i < 3 / 10 then
          [Particle.init mc ms f.x f.y f.color (r.scSpeed i) (r.scAngle i)
            (r.size i / 2) (r.scDecay i)]
        else [])) ∧
    (Firework.explode mc ms r f).particles.length =
      r.count + ((List.range r.count).filter
        (fun i => decide (r.scRoll i < 3 / 10))).length := by
  have hpart : (Firework.explode mc ms r f).particles =
      (List.range r.count).flatMap (fun i =>
        (Particle.init mc ms f.x f.y f.color (r.speed i)
          (2 * mathPi * (i : ℚ) / (r.count : ℚ)) (r.size i) (r.decay i)) ::
        (if r.scRoll i < 3 / 10 then
          [Particle.init mc ms f.x f.y f.color (r.scSpeed i) (r.scAngle i)
            (r.size i / 2) (r.scDecay i)]
        else [])) := by
    simp [Firework.explode, hp]
  refine ⟨rfl, hr.1, hr.2.1, hpart, ?_⟩
  rw [hpart, flatMap_cons_ite_length (fun i => r.scRoll i < 3 / 10)]
  simp

/-- The concrete explosion oracle satisfies every requested range. -/
lemma rand0_inRange : rand0.InRange := by
  refine ⟨?_, ?_, fun i => ⟨?_, ?_⟩, fun i => ⟨?_, ?_⟩, fun i => ⟨?_, ?_⟩,
    fun i => ⟨?_, ?_⟩, fun i => ⟨?_, ?_⟩, fun i => ⟨?_, ?_⟩, fun i => ⟨?_, ?_⟩⟩ <;>
    norm_num [rand0, mathPi]

/-- C4 witness at the concrete oracle and a freshly constructed firework. -/
theorem explode_burst_witness :
    (Firework.explode mc0 ms0 rand0 risingFirework).exploded = true ∧
    30 ≤ rand0.count ∧ rand0.count ≤ 60 ∧
    (Firework.explode mc0 ms0 rand0 risingFirework).particles.length =
      rand0.count + ((List.range rand0.count).filter
        (fun i => decide (rand0.scRoll i < 3 / 10))).length :=
  ⟨(explode_burst mc0 ms0 rand0 risingFirework rand0_inRange rfl).1,
   (explode_burst mc0 ms0 rand0 risingFirework rand0_inRange rfl).2.1,
   (explode_burst mc0 ms0 rand0 risingFirework rand0_inRange rfl).2.2.1,
   (explode_burst mc0 ms0 rand0 risingFirework rand0_inRange rfl).2.2.2.2⟩

/-- Each loop iteration's events appear, in order, inside the frame trace. -/
lemma eventsAt_sublist (mc ms : ℚ → ℚ) (r : ℕ → ExplodeRand) :
    ∀ (fs : List Firework) (k i : ℕ) (h : i < fs.length),
      List.Sublist (eventsAt mc ms r (k + i) (fs.get ⟨i, h⟩)) (frameEvents mc ms r k fs) := by
  intro fs
  induction fs with
  | nil => intro k i h; simp at h
  | cons f rest ih =>
      intro k i h
      cases i with
      | zero =>
          exact List.sublist_append_left _ _
      | succ n =>
          have hn : n < rest.length := by simpa using h
          have hsub := (ih (k + 1) n hn).trans
            (List.sublist_append_right (eventsAt mc ms r k f)
              (frameEvents mc ms r (k + 1) rest))
          have h1 : k + (n + 1) = k + 1 + n := by omega
          have h2 : (f :: rest).get ⟨n + 1, h⟩ = rest.get ⟨n, hn⟩ := rfl
          rw [show frameEvents mc ms r k (f :: rest) =
            eventsAt mc ms r k f ++ frameEvents mc ms r (k + 1) rest from rfl]
          rw [h1, h2]
          exact hsub

/-- C2 amended: within one frame the loop handles each firework in
iteration order as update-then-draw, and removes it — after its own draw —
only when dead, so a firework that dies during the frame is still drawn
once in its final state before removal.  (The claimed batch ordering across
distinct fireworks does not hold; see the counterexample.) -/
theorem frame_order_per_firework (mc ms : ℚ → ℚ) (r : ℕ → ExplodeRand)
    (fs : List Firework) (i : ℕ) (h : i < fs.length) :
    List.Sublist [Ev.upd i, Ev.drw i] (frameEvents mc ms r 0 fs) ∧
    ((Firework.update mc ms (r i) (fs.get ⟨i, h⟩)).is_alive = false →
      List.Sublist [Ev.upd i, Ev.drw i, Ev.prune i] (frameEvents mc ms r 0 fs)) := by
  have key := eventsAt_sublist mc ms r fs 0 i h
  rw [show (0 : ℕ) + i = i from by omega] at key
  constructor
  · have he2 : List.Sublist [Ev.upd i, Ev.drw i] (eventsAt mc ms r i (fs.get ⟨i, h⟩)) := by
      unfold eventsAt
      exact List.sublist_append_left _ _
    exact he2.trans key
  · intro hdead
    have hdead2 : (Firework.update mc ms (r i) fs[i]).is_alive = false := hdead
    have he : eventsAt mc ms r i (fs.get ⟨i, h⟩) = [Ev.upd i, Ev.drw i, Ev.prune i] := by
      simp [eventsAt, hdead2]
    exact he ▸ key

/-- The concrete two-firework frame: the first dies during the frame and is
pruned before the second is even updated. -/
lemma frame_trace_example :
    frameEvents mc0 ms0 (fun _ => rand0) 0 [deadSoonFirework, risingFirework] =
      [Ev.upd 0, Ev.drw 0, Ev.prune 0, Ev.upd 1, Ev.drw 1] := by
  norm_num [frameEvents, eventsAt, deadSoonFirework, risingFirework, dyingParticle,
    Firework.update, Firework.is_alive, Particle.update, Particle.is_alive,
    Firework.init, HEIGHT, mc0, ms0, rand0]

/-- C2 counterexample: in the concrete two-firework frame the trace is
[upd 0, drw 0, prune 0, upd 1, drw 1]: the draw of firework 0 precedes the
update of firework 1, and the removal of firework 0 precedes the draw of
firework 1, so neither do all updates precede all draws nor do all draws
precede all removals. -/
theorem frame_order_not_batched :
    ¬ BatchOrdered (frameEvents mc0 ms0 (fun _ => rand0) 0
      [deadSoonFirework, risingFirework]) := by
  rw [frame_trace_example]
  intro hb
  have h1 := hb.1 3 1 1 0 rfl rfl
  omega

/-- C2 witness: the per-firework ordering at a concrete one-firework frame
whose firework dies. -/
theorem frame_order_per_firework_witness :
    List.Sublist [Ev.upd 0, Ev.drw 0] (frameEvents mc0 ms0 (fun _ => rand0) 0 [deadSoonFirework]) ∧
    ((Firework.update mc0 ms0 rand0
        (([deadSoonFirework] : List Firework).get ⟨0, by simp⟩)).is_alive = false →
      List.Sublist [Ev.upd 0, Ev.drw 0, Ev.prune 0]
        (frameEvents mc0 ms0 (fun _ => rand0) 0 [deadSoonFirework])) :=
  frame_order_per_firework mc0 ms0 (fun _ => rand0) [deadSoonFirework] 0 (by simp)

/-- C9 counterexample: on the draw stream 60, 30, 30, ... the source —
which draws a fresh threshold every frame — first spawns at frame 31
(counter 31 exceeds that frame's fresh draw 30), while the claimed
held-threshold mechanism, whose first cycle holds the first draw 60,
first spawns at frame 61; the spawn traces differ at frame index 30. -/
theorem auto_spawn_threshold_not_held :
    codeAutoTrace (60 :: List.replicate 60 30) 0 ≠
      claimAutoTrace 61 0 60 (List.replicate 60 30) ∧
    (codeAutoTrace (60 :: List.replicate 60 30) 0).get? 30 = some true ∧
    (claimAutoTrace 61 0 60 (List.replicate 60 30)).get? 30 = some false := by
  refine ⟨by decide, by decide, by decide⟩

/-- C9 amended: every frame the counter increments and is compared against
that frame's freshly drawn threshold in [30, 60]; when the incremented
counter exceeds it, one firework is spawned with x in [50, WIDTH - 50] and
target altitude in [50, HEIGHT/2] and the counter resets to zero, otherwise
the incremented counter is kept and the list is unchanged.  No threshold is
held across frames. -/
theorem auto_spawn_step (r : AutoSpawnRand) (c : ℕ) (fs : List Firework)
    (hr : r.InRange) :
    ((autoSpawnFrame r c fs).1 = if c + 1 > r.threshold then 0 else c + 1) ∧
    ((autoSpawnFrame r c fs).2.length =
      if c + 1 > r.threshold then fs.length + 1 else fs.length) ∧
    30 ≤ r.threshold ∧ r.threshold ≤ 60 ∧
    (c + 1 > r.threshold →
      (autoSpawnFrame r c fs).2.getLast? =
        some (Firework.init r.xPos r.targetY r.color r.vyDraw) ∧
      50 ≤ r.xPos ∧ r.xPos ≤ WIDTH - 50 ∧
      50 ≤ r.targetY ∧ r.targetY ≤ HEIGHT / 2) ∧
    (¬ c + 1 > r.threshold → (autoSpawnFrame r c fs).2 = fs) := by
  obtain ⟨h1, h2, h3, h4, h5, h6, h7, h8, hc⟩ := hr
  refine ⟨?_, ?_, h1, h2, ?_, ?_⟩
  · unfold autoSpawnFrame; split <;> simp
  · unfold autoSpawnFrame; split <;> simp
  · intro hgt
    unfold autoSpawnFrame
    rw [if_pos hgt]
    exact ⟨List.getLast?_concat _, h3, h4, h5, h6⟩
  · intro hle
    unfold autoSpawnFrame
    rw [if_neg hle]

/-- A concrete in-range auto-spawn oracle. -/
def autoRand0 : AutoSpawnRand := ⟨30, 100, 100, 15, (255, 0, 0)⟩

/-- The concrete auto-spawn oracle satisfies every requested range. -/
lemma autoRand0_inRange : autoRand0.InRange := by
  refine ⟨?_, ?_, ?_, ?_, ?_, ?_, ?_, ?_, ?_⟩ <;>
    norm_num [autoRand0, WIDTH, HEIGHT, COLORS]

/-- C9 witness at the concrete oracle, with the counter just past the
threshold. -/
theorem auto_spawn_step_witness :
    ((autoSpawnFrame autoRand0 30 []).1 =
      if 30 + 1 > autoRand0.threshold then 0 else 30 + 1) ∧
    30 ≤ autoRand0.threshold ∧ autoRand0.threshold ≤ 60 :=
  ⟨(auto_spawn_step autoRand0 30 [] autoRand0_inRange).1,
   (auto_spawn_step autoRand0 30 [] autoRand0_inRange).2.2.1,
   (auto_spawn_step autoRand0 30 [] autoRand0_inRange).2.2.2.1⟩

end Fireworks
